import Mathlib

/-!
Shallow embedding of the block-stacking game core
(src/src/game/game_logic.js, src/src/entities/block.js,
src/src/core/physics_manager.js game configuration).

JS numbers are modelled as rationals (ℚ); the integer score as ℤ.
External collaborators (rendering, physics simulation, DOM) only receive
side effects from the core; the events the core emits outward
(LAYER_ADDED, GAME_START, SCORE_UPDATE, GAME_OVER) are accumulated in an
`events` list so that emission can be reasoned about.
-/

namespace StackGame

/-- DIRECTIONS from game_config: X = 'x', Z = 'z'. -/
inductive Direction where
  | x : Direction
  | z : Direction
deriving DecidableEq, Repr

/-- The opposite sliding axis (used for `nextDirection` in cutAndContinue). -/
def Direction.flip : Direction → Direction
  | .x => .z
  | .z => .x

/-- GAME_CONFIG.BOX_HEIGHT = 1. -/
def boxHeight : ℚ := 1

/-- GAME_CONFIG.ORIGINAL_BOX_SIZE = 3. -/
def originalBoxSize : ℚ := 3

/-- GAME_CONFIG.MOVEMENT_SPEED = 0.008. -/
def movementSpeed : ℚ := 8 / 1000

/-- Math.sign on rationals: 1 for positive, -1 for negative, 0 for zero. -/
def mathSign (q : ℚ) : ℚ :=
  if 0 < q then 1 else if q < 0 then -1 else 0

/-- Block (src/src/entities/block.js): `position` {x,y,z}, `width`, `depth`,
`direction` ('x' | 'z' | null).  The mesh/physics-body handles, and the
isMoving/isFalling flags (written but never read by the game logic), are
external and not modelled. -/
structure Block where
  x : ℚ
  y : ℚ
  z : ℚ
  width : ℚ
  depth : ℚ
  direction : Option Direction
deriving DecidableEq, Repr

/-- Block.getPosition(direction): returns this.position[direction]. -/
def Block.getPosition (b : Block) : Direction → ℚ
  | .x => b.x
  | .z => b.z

/-- Block.getSize(direction): direction === X ? width : depth. -/
def Block.getSize (b : Block) : Direction → ℚ
  | .x => b.width
  | .z => b.depth

/-- Block.cut(overlap, originalSize, delta): sets width (resp. depth) to
`overlap` along this.direction and shifts position[direction] by -delta/2.
`originalSize` only feeds the mesh scale factor (visual, not modelled).
With a null direction the JS writes a junk "null" property and leaves the
modelled fields unchanged. -/
def Block.cut (b : Block) (overlap originalSize delta : ℚ) : Block :=
  match b.direction with
  | some .x => { b with width := overlap, x := b.x - delta / 2 }
  | some .z => { b with depth := overlap, z := b.z - delta / 2 }
  | none => b

/-- Block.updatePosition(direction, delta): position[direction] += delta.
(Always invoked with the block's own direction; a null direction writes a
junk property in JS, leaving x and z unchanged.) -/
def Block.updatePosition (b : Block) (d : Option Direction) (delta : ℚ) : Block :=
  match d with
  | some .x => { b with x := b.x + delta }
  | some .z => { b with z := b.z + delta }
  | none => b

/-- Block.isOutOfBounds(bound = 10): |position[this.direction]| > 10.
A null direction yields NaN > 10 = false in JS. -/
def Block.isOutOfBounds (b : Block) : Bool :=
  match b.direction with
  | some d => decide (10 < |b.getPosition d|)
  | none => false

/-- Events the game logic emits to external collaborators. -/
inductive GameEvent where
  | layerAdded (stackHeight : ℕ) : GameEvent
  | gameStart : GameEvent
  | scoreUpdate (score : ℤ) : GameEvent
  | gameOver : GameEvent
deriving DecidableEq, Repr

/-- GameLogic state (src/src/game/game_logic.js). -/
structure GameState where
  stack : List Block
  overhangs : List Block
  isAutopilot : Bool
  isGameEnded : Bool
  score : ℤ
  robotPrecision : ℚ
  events : List GameEvent
deriving DecidableEq, Repr

/-- Placeholder for out-of-range list access (`stack[i]` on an index that the
guards make unreachable). -/
def dummyBlock : Block := ⟨0, 0, 0, 0, 0, none⟩

/-- this.stack[this.stack.length - 1]. -/
def topLayer (s : GameState) : Block :=
  (s.stack.getLast?).getD dummyBlock

/-- this.stack[this.stack.length - 2]. -/
def previousLayer (s : GameState) : Block :=
  (s.stack.dropLast.getLast?).getD dummyBlock

/-- GameLogic.addLayer(x, z, width, depth, direction = null):
y = BOX_HEIGHT * stack.length, push the new block, emit LAYER_ADDED with
the new stack height. -/
def addLayer (s : GameState) (x z width depth : ℚ) (direction : Option Direction) :
    GameState :=
  let y := boxHeight * (s.stack.length : ℚ)
  let block : Block := ⟨x, y, z, width, depth, direction⟩
  { s with
    stack := s.stack ++ [block]
    events := s.events ++ [GameEvent.layerAdded (s.stack.length + 1)] }

/-- GameLogic.addOverhang(x, z, width, depth):
y = BOX_HEIGHT * (stack.length - 1), push a direction-less falling block
onto overhangs. -/
def addOverhang (s : GameState) (x z width depth : ℚ) : GameState :=
  let y := boxHeight * ((s.stack.length : ℚ) - 1)
  { s with overhangs := s.overhangs ++ [⟨x, y, z, width, depth, none⟩] }

/-- GameLogic.missBlock(): spawn an overhang at the top block's current
x/z with its current width/depth, pop the stack, set isGameEnded, and emit
GAME_OVER unless in autopilot. -/
def missBlock (s : GameState) : GameState :=
  let top := topLayer s
  let s1 := addOverhang s (top.getPosition .x) (top.getPosition .z) top.width top.depth
  let s2 := { s1 with stack := s1.stack.dropLast, isGameEnded := true }
  if s.isAutopilot then s2
  else { s2 with events := s2.events ++ [GameEvent.gameOver] }

/-- GameLogic.cutAndContinue(topLayer, overlap, size, delta, overhangSize,
direction): cut the top block in place, spawn the overhang from the
POST-cut top position, update the score to stack.length - 1, emit
SCORE_UPDATE, and append the next layer with the flipped direction.
The physics-shape rebuild is external and not modelled. -/
def cutAndContinue (s : GameState) (top : Block)
    (overlap size delta overhangSize : ℚ) (direction : Direction) : GameState :=
  let cutTop := top.cut overlap size delta
  let s1 := { s with stack := s.stack.dropLast ++ [cutTop] }
  let overhangShift := (overlap / 2 + overhangSize / 2) * mathSign delta
  let overhangX :=
    if direction = .x then cutTop.getPosition .x + overhangShift else cutTop.getPosition .x
  let overhangZ :=
    if direction = .z then cutTop.getPosition .z + overhangShift else cutTop.getPosition .z
  let overhangWidth := if direction = .x then overhangSize else cutTop.width
  let overhangDepth := if direction = .z then overhangSize else cutTop.depth
  let s2 := addOverhang s1 overhangX overhangZ overhangWidth overhangDepth
  let nextX := if direction = .x then cutTop.getPosition .x else -10
  let nextZ := if direction = .z then cutTop.getPosition .z else -10
  let nextDirection := direction.flip
  let newScore : ℤ := (s2.stack.length : ℤ) - 1
  let s3 := { s2 with
    score := newScore
    events := s2.events ++ [GameEvent.scoreUpdate newScore] }
  addLayer s3 nextX nextZ cutTop.width cutTop.depth (some nextDirection)

/-- GameLogic.splitBlockAndAddNext(): guarded no-op when the game has ended
or fewer than 2 layers exist; otherwise compute size/delta/overhangSize/
overlap along the top block's direction and either cut or miss.
A null top direction makes delta NaN in JS, so every comparison fails and
the else branch (missBlock) runs; that case is encoded directly. -/
def splitBlockAndAddNext (s : GameState) : GameState :=
  if s.isGameEnded = true ∨ s.stack.length < 2 then s
  else
    let top := topLayer s
    let prev := previousLayer s
    match top.direction with
    | none => missBlock s
    | some d =>
      let size := top.getSize d
      let delta := top.getPosition d - prev.getPosition d
      let overhangSize := |delta|
      let overlap := size - overhangSize
      if 0 < overlap then cutAndContinue s top overlap size delta overhangSize d
      else missBlock s

/-- GameLogic.startGame(): turn autopilot off, clear the ended flag, zero the
score, destroy every block (clearGame empties stack and overhangs), rebuild
the two seed layers, emit GAME_START and SCORE_UPDATE(0). -/
def startGame (s : GameState) : GameState :=
  let s0 := { s with
    isAutopilot := false
    isGameEnded := false
    score := 0
    stack := ([] : List Block)
    overhangs := ([] : List Block) }
  let s1 := addLayer s0 0 0 originalBoxSize originalBoxSize none
  let s2 := addLayer s1 (-10) 0 originalBoxSize originalBoxSize (some .x)
  { s2 with events := s2.events ++ [GameEvent.gameStart, GameEvent.scoreUpdate 0] }

/-- GameLogic.handleBlockPlacement(): in autopilot a placement request
resets the game; otherwise it attempts the split. -/
def handleBlockPlacement (s : GameState) : GameState :=
  if s.isAutopilot then startGame s else splitBlockAndAddNext s

/-- GameLogic constructor state: empty collections, autopilot on, not ended,
score 0, robotPrecision from Math.random (taken as a parameter). -/
def initialState (rp : ℚ) : GameState :=
  ⟨[], [], true, false, 0, rp, []⟩

/-- GameLogic.initialize(): the two seed layers of a fresh engine. -/
def initGame (s : GameState) : GameState :=
  let s1 := addLayer s 0 0 originalBoxSize originalBoxSize none
  addLayer s1 (-10) 0 originalBoxSize originalBoxSize (some .x)

/-- GameLogic.shouldBlockMove(topLayer, previousLayer): false once ended;
true for a human-controlled block; in autopilot, true while the top block
has not yet reached previous + robotPrecision along its axis.  (A null top
direction produces NaN comparisons, hence false.) -/
def shouldBlockMove (s : GameState) (top prev : Block) : Bool :=
  if s.isGameEnded then false
  else if !s.isAutopilot then true
  else
    match top.direction with
    | some d => decide (top.getPosition d < prev.getPosition d + s.robotPrecision)
    | none => false

/-- GameLogic.update(deltaTime): guarded on stack.length >= 2; moves the top
block (and misses when out of bounds) or, in autopilot, places it and
re-randomizes robotPrecision (the fresh random value is the `newPrec`
parameter).  The camera follow and the physics-to-visual overhang sync
touch only external state. -/
def update (s : GameState) (dt newPrec : ℚ) : GameState :=
  if s.stack.length < 2 then s
  else
    let top := topLayer s
    let prev := previousLayer s
    if shouldBlockMove s top prev then
      let moved := top.updatePosition top.direction (movementSpeed * dt)
      let s1 := { s with stack := s.stack.dropLast ++ [moved] }
      if moved.isOutOfBounds then missBlock s1 else s1
    else if s.isAutopilot then
      let s1 := splitBlockAndAddNext s
      { s1 with robotPrecision := newPrec }
    else s

/-! ## Reduction lemmas -/

/-- A placement attempt with `overlap > 0` reduces to `cutAndContinue`. -/
lemma split_eq_cut (s : GameState) (d : Direction)
    (hend : s.isGameEnded = false)
    (hlen : 2 ≤ s.stack.length)
    (hdir : (topLayer s).direction = some d)
    (hov : 0 < (topLayer s).getSize d
        - |(topLayer s).getPosition d - (previousLayer s).getPosition d|) :
    splitBlockAndAddNext s
      = cutAndContinue s (topLayer s)
          ((topLayer s).getSize d
            - |(topLayer s).getPosition d - (previousLayer s).getPosition d|)
          ((topLayer s).getSize d)
          ((topLayer s).getPosition d - (previousLayer s).getPosition d)
          (|(topLayer s).getPosition d - (previousLayer s).getPosition d|) d := by
  unfold splitBlockAndAddNext
  rw [if_neg (by simp [hend]; omega)]
  simp only [hdir]
  rw [if_pos hov]

/-- A placement attempt with `overlap ≤ 0` reduces to `missBlock`. -/
lemma split_eq_miss (s : GameState) (d : Direction)
    (hend : s.isGameEnded = false)
    (hlen : 2 ≤ s.stack.length)
    (hdir : (topLayer s).direction = some d)
    (hov : (topLayer s).getSize d
        - |(topLayer s).getPosition d - (previousLayer s).getPosition d| ≤ 0) :
    splitBlockAndAddNext s = missBlock s := by
  unfold splitBlockAndAddNext
  rw [if_neg (by simp [hend]; omega)]
  simp only [hdir]
  rw [if_neg (by linarith)]

/-- Cutting shrinks the extent along the block's own axis to `overlap`. -/
lemma Block.getSize_cut_self (b : Block) (d : Direction) (hd : b.direction = some d)
    (o os δ : ℚ) : (b.cut o os δ).getSize d = o := by
  unfold Block.cut
  rw [hd]
  cases d <;> simp [Block.getSize]

/-- Cutting leaves the extent along the other axis unchanged. -/
lemma Block.getSize_cut_other (b : Block) (d : Direction) (hd : b.direction = some d)
    (o os δ : ℚ) : (b.cut o os δ).getSize d.flip = b.getSize d.flip := by
  unfold Block.cut
  rw [hd]
  cases d <;> simp [Block.getSize, Direction.flip]

/-- Cutting shifts the coordinate along the block's own axis by `-delta/2`. -/
lemma Block.getPosition_cut_self (b : Block) (d : Direction) (hd : b.direction = some d)
    (o os δ : ℚ) : (b.cut o os δ).getPosition d = b.getPosition d - δ / 2 := by
  unfold Block.cut
  rw [hd]
  cases d <;> simp [Block.getPosition]

/-- Cutting leaves the coordinate along the other axis unchanged. -/
lemma Block.getPosition_cut_other (b : Block) (d : Direction) (hd : b.direction = some d)
    (o os δ : ℚ) : (b.cut o os δ).getPosition d.flip = b.getPosition d.flip := by
  unfold Block.cut
  rw [hd]
  cases d <;> simp [Block.getPosition, Direction.flip]

/-- Cutting does not change the block's direction. -/
lemma Block.direction_cut (b : Block) (o os δ : ℚ) :
    (b.cut o os δ).direction = b.direction := by
  unfold Block.cut
  rcases hb : b.direction with _ | d
  · simp [hb]
  · cases d <;> simp [hb]

/-- Concrete pre-placement state from the specification's Scenario A:
base 3x3 layer at the origin, top 3x3 layer sliding on the x axis placed
at x = 1 (delta = 1, overlap = 2, overhangSize = 1). -/
def scenarioA : GameState :=
  ⟨[⟨0, 0, 0, 3, 3, none⟩, ⟨1, 1, 0, 3, 3, some .x⟩], [], false, false, 0, 0, []⟩

/-! ## Claims -/

/-- C1: for every placement with `overlap > 0` (size the top block's extent
along its axis, delta the signed offset from the previous layer,
overhangSize = |delta|, overlap = size - overhangSize), the cut shrinks the
kept top block's extent along the cut axis to exactly `overlap`, the spawned
overhang's extent along that axis is exactly `overhangSize`, and kept extent
plus overhang extent equals the pre-cut extent exactly. -/
theorem C1_cut_extents_exact (s : GameState) (d : Direction)
    (hend : s.isGameEnded = false)
    (hlen : 2 ≤ s.stack.length)
    (hdir : (topLayer s).direction = some d)
    (hov : 0 < (topLayer s).getSize d
        - |(topLayer s).getPosition d - (previousLayer s).getPosition d|) :
    (previousLayer (splitBlockAndAddNext s)).getSize d
      = (topLayer s).getSize d
        - |(topLayer s).getPosition d - (previousLayer s).getPosition d|
    ∧ ((splitBlockAndAddNext s).overhangs.getLast?.getD dummyBlock).getSize d
      = |(topLayer s).getPosition d - (previousLayer s).getPosition d|
    ∧ (splitBlockAndAddNext s).overhangs.length = s.overhangs.length + 1
    ∧ (previousLayer (splitBlockAndAddNext s)).getSize d
        + ((splitBlockAndAddNext s).overhangs.getLast?.getD dummyBlock).getSize d
      = (topLayer s).getSize d := by
  rw [split_eq_cut s d hend hlen hdir hov]
  simp only [topLayer, previousLayer] at hdir ⊢
  cases d <;>
    simp [cutAndContinue, addOverhang, addLayer, Block.cut, hdir, Block.getSize,
      Block.getPosition, List.dropLast_concat]

/-- C1 witness: the theorem applied to the concrete Scenario A state. -/
theorem C1_witness :
    ((0 : ℚ) < (topLayer scenarioA).getSize .x
        - |(topLayer scenarioA).getPosition .x - (previousLayer scenarioA).getPosition .x|)
    ∧ ((previousLayer (splitBlockAndAddNext scenarioA)).getSize .x
        = (topLayer scenarioA).getSize .x
          - |(topLayer scenarioA).getPosition .x - (previousLayer scenarioA).getPosition .x|
      ∧ ((splitBlockAndAddNext scenarioA).overhangs.getLast?.getD dummyBlock).getSize .x
        = |(topLayer scenarioA).getPosition .x - (previousLayer scenarioA).getPosition .x|
      ∧ (splitBlockAndAddNext scenarioA).overhangs.length
        = scenarioA.overhangs.length + 1
      ∧ (previousLayer (splitBlockAndAddNext scenarioA)).getSize .x
          + ((splitBlockAndAddNext scenarioA).overhangs.getLast?.getD dummyBlock).getSize .x
        = (topLayer scenarioA).getSize .x) :=
  ⟨by norm_num [scenarioA, topLayer, previousLayer, Block.getSize, Block.getPosition],
   C1_cut_extents_exact scenarioA .x rfl (by decide) rfl
     (by norm_num [scenarioA, topLayer, previousLayer, Block.getSize, Block.getPosition])⟩

/-- missBlock always sets the ended flag. -/
lemma missBlock_isGameEnded (s : GameState) : (missBlock s).isGameEnded = true := by
  cases hA : s.isAutopilot <;> simp [missBlock, addOverhang, hA]

/-- missBlock pops the stack. -/
lemma missBlock_stack (s : GameState) : (missBlock s).stack = s.stack.dropLast := by
  cases hA : s.isAutopilot <;> simp [missBlock, addOverhang, hA]

/-- missBlock does not touch the score. -/
lemma missBlock_score (s : GameState) : (missBlock s).score = s.score := by
  cases hA : s.isAutopilot <;> simp [missBlock, addOverhang, hA]

/-- missBlock keeps the autopilot flag. -/
lemma missBlock_isAutopilot (s : GameState) :
    (missBlock s).isAutopilot = s.isAutopilot := by
  cases hA : s.isAutopilot <;> simp [missBlock, addOverhang, hA]

/-- missBlock turns the entire top block into an overhang at its current
x/z with its current width/depth (one level below the top of the stack). -/
lemma missBlock_overhangs (s : GameState) :
    (missBlock s).overhangs = s.overhangs
      ++ [⟨(topLayer s).getPosition .x, boxHeight * ((s.stack.length : ℚ) - 1),
           (topLayer s).getPosition .z, (topLayer s).width, (topLayer s).depth, none⟩] := by
  cases hA : s.isAutopilot <;> simp [missBlock, addOverhang, hA]

/-- missBlock emits GAME_OVER exactly when not in autopilot. -/
lemma missBlock_events (s : GameState) :
    (missBlock s).events
      = s.events ++ (if s.isAutopilot then [] else [GameEvent.gameOver]) := by
  cases hA : s.isAutopilot <;> simp [missBlock, addOverhang, hA]

/-- C2: a placement attempt misses if and only if `overlap ≤ 0`; at
`overlap = 0` exactly, missBlock fires and the stack shrinks (no kept block
survives), while for every `overlap > 0` the cut path runs: the stack grows
by one and the kept block has positive extent along the cut axis. -/
theorem C2_miss_iff_nonpositive_overlap (s : GameState) (d : Direction)
    (hend : s.isGameEnded = false)
    (hlen : 2 ≤ s.stack.length)
    (hdir : (topLayer s).direction = some d) :
    ((splitBlockAndAddNext s).isGameEnded = true
      ↔ (topLayer s).getSize d
          - |(topLayer s).getPosition d - (previousLayer s).getPosition d| ≤ 0)
    ∧ ((topLayer s).getSize d
          - |(topLayer s).getPosition d - (previousLayer s).getPosition d| ≤ 0
        → (splitBlockAndAddNext s).stack.length + 1 = s.stack.length)
    ∧ (0 < (topLayer s).getSize d
          - |(topLayer s).getPosition d - (previousLayer s).getPosition d|
        → (splitBlockAndAddNext s).stack.length = s.stack.length + 1
          ∧ (previousLayer (splitBlockAndAddNext s)).getSize d
              = (topLayer s).getSize d
                - |(topLayer s).getPosition d - (previousLayer s).getPosition d|
          ∧ 0 < (previousLayer (splitBlockAndAddNext s)).getSize d) := by
  rcases le_or_lt
      ((topLayer s).getSize d
        - |(topLayer s).getPosition d - (previousLayer s).getPosition d|) 0 with hle | hpos
  · rw [split_eq_miss s d hend hlen hdir hle]
    refine ⟨by simp [missBlock_isGameEnded s, hle], fun _ => ?_, fun h => absurd h (not_lt.mpr hle)⟩
    rw [missBlock_stack s]
    simp only [List.length_dropLast]
    omega
  · have hlen1 : 1 ≤ s.stack.length := by omega
    rw [split_eq_cut s d hend hlen hdir hpos]
    have hkept : (previousLayer (cutAndContinue s (topLayer s)
        ((topLayer s).getSize d
          - |(topLayer s).getPosition d - (previousLayer s).getPosition d|)
        ((topLayer s).getSize d)
        ((topLayer s).getPosition d - (previousLayer s).getPosition d)
        (|(topLayer s).getPosition d - (previousLayer s).getPosition d|) d)).getSize d
        = (topLayer s).getSize d
          - |(topLayer s).getPosition d - (previousLayer s).getPosition d| := by
      simp only [topLayer, previousLayer] at hdir ⊢
      cases d <;>
        simp [cutAndContinue, addOverhang, addLayer, Block.cut, hdir, Block.getSize,
          Block.getPosition, List.dropLast_concat]
    refine ⟨?_, fun h => absurd hpos (not_lt.mpr h), fun _ => ⟨?_, hkept, ?_⟩⟩
    · simp only [cutAndContinue, addOverhang, addLayer]
      simp [hend]
      linarith
    · simp only [cutAndContinue, addOverhang, addLayer, List.length_append,
        List.length_dropLast]
      simp
      omega
    · rw [hkept]
      exact hpos

/-- C2 witness: Scenario A (overlap = 2 > 0) instantiates the theorem. -/
theorem C2_witness :
    scenarioA.isGameEnded = false
    ∧ 2 ≤ scenarioA.stack.length
    ∧ (topLayer scenarioA).direction = some .x
    ∧ (((splitBlockAndAddNext scenarioA).isGameEnded = true
        ↔ (topLayer scenarioA).getSize .x
            - |(topLayer scenarioA).getPosition .x - (previousLayer scenarioA).getPosition .x| ≤ 0)
      ∧ ((topLayer scenarioA).getSize .x
            - |(topLayer scenarioA).getPosition .x - (previousLayer scenarioA).getPosition .x| ≤ 0
          → (splitBlockAndAddNext scenarioA).stack.length + 1 = scenarioA.stack.length)
      ∧ (0 < (topLayer scenarioA).getSize .x
            - |(topLayer scenarioA).getPosition .x - (previousLayer scenarioA).getPosition .x|
          → (splitBlockAndAddNext scenarioA).stack.length = scenarioA.stack.length + 1
            ∧ (previousLayer (splitBlockAndAddNext scenarioA)).getSize .x
                = (topLayer scenarioA).getSize .x
                  - |(topLayer scenarioA).getPosition .x
                      - (previousLayer scenarioA).getPosition .x|
            ∧ 0 < (previousLayer (splitBlockAndAddNext scenarioA)).getSize .x)) :=
  ⟨rfl, by decide, rfl,
   C2_miss_iff_nonpositive_overlap scenarioA .x rfl (by decide) rfl⟩

/-- Math.sign(q) * |q| = q. -/
lemma mathSign_mul_abs (q : ℚ) : mathSign q * |q| = q := by
  rcases lt_trichotomy q 0 with h | h | h
  · rw [mathSign, if_neg (by linarith), if_pos h, abs_of_neg h]
    ring
  · simp [mathSign, h]
  · rw [mathSign, if_pos h, abs_of_pos h]
    ring

/-- The kept (just-cut) block sits one below the new top and its coordinate
along the cut axis is the pre-cut coordinate shifted by -delta/2. -/
lemma split_kept_pos (s : GameState) (d : Direction)
    (hend : s.isGameEnded = false)
    (hlen : 2 ≤ s.stack.length)
    (hdir : (topLayer s).direction = some d)
    (hov : 0 < (topLayer s).getSize d
        - |(topLayer s).getPosition d - (previousLayer s).getPosition d|) :
    (previousLayer (splitBlockAndAddNext s)).getPosition d
      = (topLayer s).getPosition d
        - ((topLayer s).getPosition d - (previousLayer s).getPosition d) / 2 := by
  rw [split_eq_cut s d hend hlen hdir hov]
  simp only [topLayer, previousLayer] at hdir ⊢
  cases d <;>
    simp [cutAndContinue, addOverhang, addLayer, Block.cut, hdir,
      Block.getPosition, List.dropLast_concat]

/-- The spawned overhang's coordinate along the cut axis, exactly as the
code computes it: the POST-cut top coordinate plus
(overlap/2 + overhangSize/2) * sign(delta). -/
lemma split_overhang_pos (s : GameState) (d : Direction)
    (hend : s.isGameEnded = false)
    (hlen : 2 ≤ s.stack.length)
    (hdir : (topLayer s).direction = some d)
    (hov : 0 < (topLayer s).getSize d
        - |(topLayer s).getPosition d - (previousLayer s).getPosition d|) :
    ((splitBlockAndAddNext s).overhangs.getLast?.getD dummyBlock).getPosition d
      = ((topLayer s).getPosition d
          - ((topLayer s).getPosition d - (previousLayer s).getPosition d) / 2)
        + (((topLayer s).getSize d
            - |(topLayer s).getPosition d - (previousLayer s).getPosition d|) / 2
           + |(topLayer s).getPosition d - (previousLayer s).getPosition d| / 2)
          * mathSign ((topLayer s).getPosition d - (previousLayer s).getPosition d) := by
  rw [split_eq_cut s d hend hlen hdir hov]
  simp only [topLayer, previousLayer] at hdir ⊢
  cases d <;>
    simp [cutAndContinue, addOverhang, addLayer, Block.cut, hdir,
      Block.getPosition, List.dropLast_concat]

/-- C3 (amended): for every placement with `overlap > 0`, the spawned
overhang's coordinate along the cut axis equals the kept block's POST-cut
coordinate shifted by sign(delta) * (overlap/2 + overhangSize/2),
equivalently the ORIGINAL pre-cut coordinate shifted by
sign(delta) * overlap/2; the overhang's near edge coincides with the kept
block's far edge (exactly adjoining). -/
theorem C3_overhang_adjoins_kept (s : GameState) (d : Direction)
    (hend : s.isGameEnded = false)
    (hlen : 2 ≤ s.stack.length)
    (hdir : (topLayer s).direction = some d)
    (hov : 0 < (topLayer s).getSize d
        - |(topLayer s).getPosition d - (previousLayer s).getPosition d|) :
    ((splitBlockAndAddNext s).overhangs.getLast?.getD dummyBlock).getPosition d
      = (previousLayer (splitBlockAndAddNext s)).getPosition d
        + mathSign ((topLayer s).getPosition d - (previousLayer s).getPosition d)
          * (((topLayer s).getSize d
              - |(topLayer s).getPosition d - (previousLayer s).getPosition d|) / 2
             + |(topLayer s).getPosition d - (previousLayer s).getPosition d| / 2)
    ∧ ((splitBlockAndAddNext s).overhangs.getLast?.getD dummyBlock).getPosition d
      = (topLayer s).getPosition d
        + mathSign ((topLayer s).getPosition d - (previousLayer s).getPosition d)
          * ((topLayer s).getSize d
              - |(topLayer s).getPosition d - (previousLayer s).getPosition d|) / 2
    ∧ ((splitBlockAndAddNext s).overhangs.getLast?.getD dummyBlock).getPosition d
        - mathSign ((topLayer s).getPosition d - (previousLayer s).getPosition d)
          * |(topLayer s).getPosition d - (previousLayer s).getPosition d| / 2
      = (previousLayer (splitBlockAndAddNext s)).getPosition d
        + mathSign ((topLayer s).getPosition d - (previousLayer s).getPosition d)
          * ((topLayer s).getSize d
              - |(topLayer s).getPosition d - (previousLayer s).getPosition d|) / 2 := by
  have hkept := split_kept_pos s d hend hlen hdir hov
  have hpos := split_overhang_pos s d hend hlen hdir hov
  have hsign :=
    mathSign_mul_abs ((topLayer s).getPosition d - (previousLayer s).getPosition d)
  refine ⟨?_, ?_, ?_⟩
  · rw [hpos, hkept]
    linarith [hsign]
  · rw [hpos]
    linarith [hsign]
  · rw [hpos, hkept]
    linarith [hsign]

/-- C3 witness: the amended theorem applied to the Scenario A state. -/
theorem C3_witness :
    ((0 : ℚ) < (topLayer scenarioA).getSize .x
        - |(topLayer scenarioA).getPosition .x - (previousLayer scenarioA).getPosition .x|)
    ∧ ((splitBlockAndAddNext scenarioA).overhangs.getLast?.getD dummyBlock).getPosition .x
      = (topLayer scenarioA).getPosition .x
        + mathSign ((topLayer scenarioA).getPosition .x - (previousLayer scenarioA).getPosition .x)
          * ((topLayer scenarioA).getSize .x
              - |(topLayer scenarioA).getPosition .x - (previousLayer scenarioA).getPosition .x|) / 2 :=
  ⟨by norm_num [scenarioA, topLayer, previousLayer, Block.getSize, Block.getPosition],
   (C3_overhang_adjoins_kept scenarioA .x rfl (by decide) rfl
     (by norm_num [scenarioA, topLayer, previousLayer, Block.getSize, Block.getPosition])).2.1⟩

/-- Full evaluation of the Scenario A placement: kept top becomes 2 wide
centred at x = 1/2, the overhang (1 wide) spawns at x = 2, a new layer
slides in at z = -10 on the z axis, and the score becomes 1. -/
lemma splitA_eval : splitBlockAndAddNext scenarioA =
    ⟨[⟨0, 0, 0, 3, 3, none⟩,
      ⟨1/2, 1, 0, 2, 3, some .x⟩,
      ⟨1/2, 2, -10, 2, 3, some .z⟩],
     [⟨2, 1, 0, 1, 3, none⟩],
     false, false, 1, 0,
     [GameEvent.scoreUpdate 1, GameEvent.layerAdded 3]⟩ := by
  norm_num [splitBlockAndAddNext, scenarioA, topLayer, previousLayer, dummyBlock,
    cutAndContinue, addOverhang, addLayer, Block.cut, Block.getSize,
    Block.getPosition, mathSign, boxHeight, Direction.flip, List.getLast?]
  decide

/-- C3 counterexample: in Scenario A (delta = 1, overlap = 2,
overhangSize = 1, pre-cut top at x = 1) the code spawns the overhang at
x = 2, while the claimed formula — ORIGINAL pre-cut coordinate plus
sign(delta) * (overlap/2 + overhangSize/2) — yields 5/2.  The claim as
stated is false on this input. -/
theorem C3_counterexample :
    ((splitBlockAndAddNext scenarioA).overhangs.getLast?.getD dummyBlock).getPosition .x = 2
    ∧ (topLayer scenarioA).getPosition .x
        + mathSign ((topLayer scenarioA).getPosition .x - (previousLayer scenarioA).getPosition .x)
          * (((topLayer scenarioA).getSize .x
              - |(topLayer scenarioA).getPosition .x - (previousLayer scenarioA).getPosition .x|) / 2
             + |(topLayer scenarioA).getPosition .x - (previousLayer scenarioA).getPosition .x| / 2)
        = 5 / 2
    ∧ ((splitBlockAndAddNext scenarioA).overhangs.getLast?.getD dummyBlock).getPosition .x
        ≠ (topLayer scenarioA).getPosition .x
          + mathSign ((topLayer scenarioA).getPosition .x - (previousLayer scenarioA).getPosition .x)
            * (((topLayer scenarioA).getSize .x
                - |(topLayer scenarioA).getPosition .x - (previousLayer scenarioA).getPosition .x|) / 2
               + |(topLayer scenarioA).getPosition .x - (previousLayer scenarioA).getPosition .x| / 2) := by
  rw [splitA_eval]
  norm_num [scenarioA, topLayer, previousLayer, dummyBlock, Block.getPosition,
    Block.getSize, mathSign, List.getLast?]

/-- C4 counterexample: in Scenario A the newly appended layer's own sliding
axis is z, and its z coordinate is the spawn offset -10, NOT the current
top block's z coordinate (0); the claim assigns the two axes backwards. -/
theorem C4_counterexample :
    (topLayer (splitBlockAndAddNext scenarioA)).direction = some Direction.z
    ∧ (topLayer (splitBlockAndAddNext scenarioA)).getPosition .z = -10
    ∧ (previousLayer (splitBlockAndAddNext scenarioA)).getPosition .z = 0
    ∧ (topLayer (splitBlockAndAddNext scenarioA)).getPosition .z
        ≠ (previousLayer (splitBlockAndAddNext scenarioA)).getPosition .z := by
  rw [splitA_eval]
  norm_num [topLayer, previousLayer, dummyBlock, Block.getPosition, List.getLast?]

/-- C4 (amended): for every placement with `overlap > 0`, the newly appended
layer sits at height `boxHeight * stack.length` (pre-append length), has the
just-cut top block's width and depth, carries the flipped axis, matches the
cut block's coordinate along the PREVIOUS layer's axis, and starts at the
fixed spawn offset -10 along its OWN (new) sliding axis. -/
theorem C4_new_layer_placement (s : GameState) (d : Direction)
    (hend : s.isGameEnded = false)
    (hlen : 2 ≤ s.stack.length)
    (hdir : (topLayer s).direction = some d)
    (hov : 0 < (topLayer s).getSize d
        - |(topLayer s).getPosition d - (previousLayer s).getPosition d|) :
    (topLayer (splitBlockAndAddNext s)).y = boxHeight * (s.stack.length : ℚ)
    ∧ (topLayer (splitBlockAndAddNext s)).width
        = (previousLayer (splitBlockAndAddNext s)).width
    ∧ (topLayer (splitBlockAndAddNext s)).depth
        = (previousLayer (splitBlockAndAddNext s)).depth
    ∧ (topLayer (splitBlockAndAddNext s)).direction = some d.flip
    ∧ (topLayer (splitBlockAndAddNext s)).getPosition d
        = (previousLayer (splitBlockAndAddNext s)).getPosition d
    ∧ (topLayer (splitBlockAndAddNext s)).getPosition d.flip = -10 := by
  rw [split_eq_cut s d hend hlen hdir hov]
  have hlen1 : s.stack.length - 1 + 1 = s.stack.length := by omega
  simp only [topLayer, previousLayer] at hdir ⊢
  cases d <;>
    simp [cutAndContinue, addOverhang, addLayer, Block.cut, hdir, Block.getPosition,
      Direction.flip, List.dropLast_concat, hlen1]

/-- C4 witness: the amended theorem applied to the Scenario A state. -/
theorem C4_witness :
    ((0 : ℚ) < (topLayer scenarioA).getSize .x
        - |(topLayer scenarioA).getPosition .x - (previousLayer scenarioA).getPosition .x|)
    ∧ ((topLayer (splitBlockAndAddNext scenarioA)).y
        = boxHeight * (scenarioA.stack.length : ℚ)
      ∧ (topLayer (splitBlockAndAddNext scenarioA)).width
          = (previousLayer (splitBlockAndAddNext scenarioA)).width
      ∧ (topLayer (splitBlockAndAddNext scenarioA)).depth
          = (previousLayer (splitBlockAndAddNext scenarioA)).depth
      ∧ (topLayer (splitBlockAndAddNext scenarioA)).direction = some (Direction.flip .x)
      ∧ (topLayer (splitBlockAndAddNext scenarioA)).getPosition .x
          = (previousLayer (splitBlockAndAddNext scenarioA)).getPosition .x
      ∧ (topLayer (splitBlockAndAddNext scenarioA)).getPosition (Direction.flip .x) = -10) :=
  ⟨by norm_num [scenarioA, topLayer, previousLayer, Block.getSize, Block.getPosition],
   C4_new_layer_placement scenarioA .x rfl (by decide) rfl
     (by norm_num [scenarioA, topLayer, previousLayer, Block.getSize, Block.getPosition])⟩

/-- C5: for every successful placement (any geometry, any state passing the
guards), the newly appended layer's axis is exactly the flip of the just-cut
layer's axis (X after Z and Z after X, by definition of `Direction.flip`),
and the cut layer below it retains its own axis — strict alternation. -/
theorem C5_strict_axis_alternation (s : GameState) (d : Direction)
    (hend : s.isGameEnded = false)
    (hlen : 2 ≤ s.stack.length)
    (hdir : (topLayer s).direction = some d)
    (hov : 0 < (topLayer s).getSize d
        - |(topLayer s).getPosition d - (previousLayer s).getPosition d|) :
    (topLayer (splitBlockAndAddNext s)).direction = some d.flip
    ∧ (previousLayer (splitBlockAndAddNext s)).direction = some d
    ∧ d.flip ≠ d := by
  rw [split_eq_cut s d hend hlen hdir hov]
  simp only [topLayer, previousLayer] at hdir ⊢
  cases d <;>
    simp [cutAndContinue, addOverhang, addLayer, Block.cut, hdir,
      Direction.flip, List.dropLast_concat]

/-- C5 witness: the theorem applied to the Scenario A state. -/
theorem C5_witness :
    ((0 : ℚ) < (topLayer scenarioA).getSize .x
        - |(topLayer scenarioA).getPosition .x - (previousLayer scenarioA).getPosition .x|)
    ∧ ((topLayer (splitBlockAndAddNext scenarioA)).direction = some (Direction.flip .x)
      ∧ (previousLayer (splitBlockAndAddNext scenarioA)).direction = some Direction.x
      ∧ Direction.flip .x ≠ .x) :=
  ⟨by norm_num [scenarioA, topLayer, previousLayer, Block.getSize, Block.getPosition],
   C5_strict_axis_alternation scenarioA .x rfl (by decide) rfl
     (by norm_num [scenarioA, topLayer, previousLayer, Block.getSize, Block.getPosition])⟩

/-- Concrete pre-placement state from the specification's Scenario B:
base 3x3 layer at the origin, top 3x3 layer on the x axis fully overshot at
x = 4 (delta = 4, overlap = -1): a miss. -/
def scenarioB : GameState :=
  ⟨[⟨0, 0, 0, 3, 3, none⟩, ⟨4, 1, 0, 3, 3, some .x⟩], [], false, false, 0, 0, []⟩

/-- C8: for every miss (overlap ≤ 0 on a stack of at least 2 layers), the
entire top block becomes an overhang at its current x/z with its current
width/depth (one level below the top), the top entry is popped (length
decreases by exactly one, no new layer appended), the phase becomes ENDED,
and the GAME_OVER notification fires if and only if not in autopilot. -/
theorem C8_miss_effects (s : GameState) (d : Direction)
    (hend : s.isGameEnded = false)
    (hlen : 2 ≤ s.stack.length)
    (hdir : (topLayer s).direction = some d)
    (hov : (topLayer s).getSize d
        - |(topLayer s).getPosition d - (previousLayer s).getPosition d| ≤ 0) :
    (splitBlockAndAddNext s).overhangs
      = s.overhangs
        ++ [⟨(topLayer s).getPosition .x, boxHeight * ((s.stack.length : ℚ) - 1),
             (topLayer s).getPosition .z, (topLayer s).width, (topLayer s).depth, none⟩]
    ∧ (splitBlockAndAddNext s).stack = s.stack.dropLast
    ∧ (splitBlockAndAddNext s).stack.length + 1 = s.stack.length
    ∧ (splitBlockAndAddNext s).isGameEnded = true
    ∧ (splitBlockAndAddNext s).events
        = s.events ++ (if s.isAutopilot then [] else [GameEvent.gameOver]) := by
  rw [split_eq_miss s d hend hlen hdir hov]
  refine ⟨missBlock_overhangs s, missBlock_stack s, ?_,
    missBlock_isGameEnded s, missBlock_events s⟩
  rw [missBlock_stack s]
  simp only [List.length_dropLast]
  omega

/-- C8 witness: the theorem applied to the Scenario B miss state. -/
theorem C8_witness :
    ((topLayer scenarioB).getSize .x
        - |(topLayer scenarioB).getPosition .x - (previousLayer scenarioB).getPosition .x| ≤ 0)
    ∧ ((splitBlockAndAddNext scenarioB).overhangs
        = scenarioB.overhangs
          ++ [⟨(topLayer scenarioB).getPosition .x,
               boxHeight * ((scenarioB.stack.length : ℚ) - 1),
               (topLayer scenarioB).getPosition .z,
               (topLayer scenarioB).width, (topLayer scenarioB).depth, none⟩]
      ∧ (splitBlockAndAddNext scenarioB).stack = scenarioB.stack.dropLast
      ∧ (splitBlockAndAddNext scenarioB).stack.length + 1 = scenarioB.stack.length
      ∧ (splitBlockAndAddNext scenarioB).isGameEnded = true
      ∧ (splitBlockAndAddNext scenarioB).events
          = scenarioB.events
            ++ (if scenarioB.isAutopilot then [] else [GameEvent.gameOver])) :=
  ⟨by norm_num [scenarioB, topLayer, previousLayer, Block.getSize, Block.getPosition],
   C8_miss_effects scenarioB .x rfl (by decide) rfl
     (by norm_num [scenarioB, topLayer, previousLayer, Block.getSize, Block.getPosition])⟩

/-- C9: a placement request while in autopilot performs a full reset instead
of cutting: autopilot turns off, the phase returns to awaiting input, the
score is zeroed, the overhang set is emptied, and the stack is rebuilt to
exactly the two seed layers. -/
theorem C9_autopilot_placement_resets (s : GameState) (h : s.isAutopilot = true) :
    handleBlockPlacement s = startGame s
    ∧ (handleBlockPlacement s).isAutopilot = false
    ∧ (handleBlockPlacement s).isGameEnded = false
    ∧ (handleBlockPlacement s).score = 0
    ∧ (handleBlockPlacement s).overhangs = []
    ∧ (handleBlockPlacement s).stack
        = [⟨0, 0, 0, originalBoxSize, originalBoxSize, none⟩,
           ⟨-10, boxHeight, 0, originalBoxSize, originalBoxSize, some .x⟩] := by
  unfold handleBlockPlacement
  rw [if_pos h]
  refine ⟨rfl, rfl, rfl, rfl, rfl, ?_⟩
  norm_num [startGame, addLayer, boxHeight]

/-- C9 witness: the theorem applied to the freshly constructed engine state
(autopilot on). -/
theorem C9_witness :
    (initialState 0).isAutopilot = true
    ∧ (handleBlockPlacement (initialState 0) = startGame (initialState 0)
      ∧ (handleBlockPlacement (initialState 0)).isAutopilot = false
      ∧ (handleBlockPlacement (initialState 0)).isGameEnded = false
      ∧ (handleBlockPlacement (initialState 0)).score = 0
      ∧ (handleBlockPlacement (initialState 0)).overhangs = []
      ∧ (handleBlockPlacement (initialState 0)).stack
          = [⟨0, 0, 0, originalBoxSize, originalBoxSize, none⟩,
             ⟨-10, boxHeight, 0, originalBoxSize, originalBoxSize, some .x⟩]) :=
  ⟨rfl, C9_autopilot_placement_resets (initialState 0) rfl⟩

/-- C10: a placement attempt while the game has ended, or with fewer than 2
layers, is a complete no-op: the whole state (stack, overhangs, score,
phase, events) is returned unchanged. -/
theorem C10_guarded_noop (s : GameState)
    (h : s.isGameEnded = true ∨ s.stack.length < 2) :
    splitBlockAndAddNext s = s := by
  unfold splitBlockAndAddNext
  rw [if_pos h]

/-- C10 witness: the theorem applied to the empty constructor state. -/
theorem C10_witness :
    (initialState 0).stack.length < 2
    ∧ splitBlockAndAddNext (initialState 0) = initialState 0 :=
  ⟨by decide, C10_guarded_noop (initialState 0) (Or.inr (by decide))⟩

/-! ## Operation traces within one game

The externally triggerable operations between two resets: a placement
request (tap/click/space → handleBlockPlacement) and an animation-frame
tick (update, carrying the frame's dt and the value Math.random would
produce for the next robotPrecision). -/

/-- One externally triggered operation. -/
inductive Op where
  | place : Op
  | tick (dt newPrec : ℚ) : Op

/-- Execute one operation. -/
def step (s : GameState) : Op → GameState
  | .place => handleBlockPlacement s
  | .tick dt newPrec => update s dt newPrec

/-- Execute a sequence of operations. -/
def run (s : GameState) (ops : List Op) : GameState :=
  ops.foldl step s

/-- Whether a placement attempt on `s` would run the cut path
(the guards pass, the top block has an axis, and `overlap > 0`). -/
def takesCutPath (s : GameState) : Bool :=
  if s.isGameEnded = true ∨ s.stack.length < 2 then false
  else
    match (topLayer s).direction with
    | none => false
    | some d =>
      decide (0 < (topLayer s).getSize d
        - |(topLayer s).getPosition d - (previousLayer s).getPosition d|)

/-- Whether executing `op` from `s` performs a successful (non-missed)
placement. -/
def opSuccess (s : GameState) : Op → Bool
  | .place => !s.isAutopilot && takesCutPath s
  | .tick _ _ =>
      decide (2 ≤ s.stack.length)
        && !(shouldBlockMove s (topLayer s) (previousLayer s))
        && s.isAutopilot
        && takesCutPath s

/-- Number of successful placements along a trace. -/
def successCount : GameState → List Op → ℕ
  | _, [] => 0
  | s, op :: rest =>
      (if opSuccess s op then 1 else 0) + successCount (step s op) rest

/-- Invariant of every state reachable within one game after `startGame`:
autopilot stays off, the score is non-negative, and the stack length is
`score + 2` while playing and `score + 1` once ended. -/
def Inv (s : GameState) : Prop :=
  s.isAutopilot = false
  ∧ 0 ≤ s.score
  ∧ (s.isGameEnded = false → (s.stack.length : ℤ) = s.score + 2)
  ∧ (s.isGameEnded = true → (s.stack.length : ℤ) = s.score + 1)

/-- States reachable by some trace of operations from a fresh game. -/
def Reachable (s : GameState) : Prop :=
  ∃ s0 ops, s = run (startGame s0) ops

/-- The guarded no-op form of splitBlockAndAddNext. -/
lemma split_noop (s : GameState) (h : s.isGameEnded = true ∨ s.stack.length < 2) :
    splitBlockAndAddNext s = s := by
  unfold splitBlockAndAddNext
  rw [if_pos h]

/-- A top block without an axis also routes to missBlock (NaN comparisons in
the JS take the else branch). -/
lemma split_eq_miss_none (s : GameState)
    (hend : s.isGameEnded = false) (hlen : 2 ≤ s.stack.length)
    (hdir : (topLayer s).direction = none) :
    splitBlockAndAddNext s = missBlock s := by
  unfold splitBlockAndAddNext
  rw [if_neg (by simp [hend]; omega)]
  simp only [hdir]

lemma takesCutPath_guard (s : GameState)
    (h : s.isGameEnded = true ∨ s.stack.length < 2) : takesCutPath s = false := by
  unfold takesCutPath
  rw [if_pos h]

lemma takesCutPath_none (s : GameState)
    (hend : s.isGameEnded = false) (hlen : 2 ≤ s.stack.length)
    (hdir : (topLayer s).direction = none) : takesCutPath s = false := by
  unfold takesCutPath
  rw [if_neg (by simp [hend]; omega)]
  simp only [hdir]

lemma takesCutPath_some (s : GameState) (d : Direction)
    (hend : s.isGameEnded = false) (hlen : 2 ≤ s.stack.length)
    (hdir : (topLayer s).direction = some d) :
    takesCutPath s = decide (0 < (topLayer s).getSize d
      - |(topLayer s).getPosition d - (previousLayer s).getPosition d|) := by
  unfold takesCutPath
  rw [if_neg (by simp [hend]; omega)]
  simp only [hdir]

lemma cutAndContinue_score (s : GameState) (top : Block) (o sz δ oh : ℚ)
    (d : Direction) (hlen1 : 1 ≤ s.stack.length) :
    (cutAndContinue s top o sz δ oh d).score = (s.stack.length : ℤ) - 1 := by
  simp only [cutAndContinue, addOverhang, addLayer, List.length_append,
    List.length_dropLast, List.length_singleton]
  omega

lemma cutAndContinue_length (s : GameState) (top : Block) (o sz δ oh : ℚ)
    (d : Direction) (hlen1 : 1 ≤ s.stack.length) :
    (cutAndContinue s top o sz δ oh d).stack.length = s.stack.length + 1 := by
  simp only [cutAndContinue, addOverhang, addLayer, List.length_append,
    List.length_dropLast, List.length_singleton]
  omega

lemma cutAndContinue_isGameEnded (s : GameState) (top : Block) (o sz δ oh : ℚ)
    (d : Direction) :
    (cutAndContinue s top o sz δ oh d).isGameEnded = s.isGameEnded := by
  simp [cutAndContinue, addOverhang, addLayer]

lemma cutAndContinue_isAutopilot (s : GameState) (top : Block) (o sz δ oh : ℚ)
    (d : Direction) :
    (cutAndContinue s top o sz δ oh d).isAutopilot = s.isAutopilot := by
  simp [cutAndContinue, addOverhang, addLayer]

/-- A block only moves while the game is not ended. -/
lemma shouldBlockMove_not_ended (s : GameState) (top prev : Block)
    (h : shouldBlockMove s top prev = true) : s.isGameEnded = false := by
  by_contra hc
  have hE : s.isGameEnded = true := by
    revert hc
    cases s.isGameEnded <;> simp
  unfold shouldBlockMove at h
  rw [hE] at h
  simp at h

/-- The score and the invariant across one placement attempt. -/
lemma split_score_inv (s : GameState) (h : Inv s) :
    (splitBlockAndAddNext s).score = s.score + (if takesCutPath s then 1 else 0)
    ∧ Inv (splitBlockAndAddNext s) := by
  obtain ⟨hA, hs0, hAw, hEn⟩ := h
  by_cases hg : s.isGameEnded = true ∨ s.stack.length < 2
  · rw [split_noop s hg, takesCutPath_guard s hg]
    exact ⟨by simp, hA, hs0, hAw, hEn⟩
  · push_neg at hg
    have hend : s.isGameEnded = false := by
      revert hg
      cases s.isGameEnded <;> simp
    have hlen : 2 ≤ s.stack.length := by omega
    have hlenZ := hAw hend
    rcases hdir : (topLayer s).direction with _ | d
    · rw [split_eq_miss_none s hend hlen hdir, takesCutPath_none s hend hlen hdir]
      refine ⟨by rw [missBlock_score]; simp, ?_, ?_, ?_, ?_⟩
      · rw [missBlock_isAutopilot]
        exact hA
      · rw [missBlock_score]
        exact hs0
      · rw [missBlock_isGameEnded]
        simp
      · intro _
        rw [missBlock_score, missBlock_stack]
        simp only [List.length_dropLast]
        omega
    · rw [takesCutPath_some s d hend hlen hdir]
      by_cases hov : 0 < (topLayer s).getSize d
          - |(topLayer s).getPosition d - (previousLayer s).getPosition d|
      · rw [split_eq_cut s d hend hlen hdir hov]
        have hl1 : 1 ≤ s.stack.length := by omega
        refine ⟨?_, ?_, ?_, ?_, ?_⟩
        · rw [cutAndContinue_score _ _ _ _ _ _ _ hl1]
          simp [hov]
          omega
        · rw [cutAndContinue_isAutopilot]
          exact hA
        · rw [cutAndContinue_score _ _ _ _ _ _ _ hl1]
          omega
        · intro _
          rw [cutAndContinue_score _ _ _ _ _ _ _ hl1,
            cutAndContinue_length _ _ _ _ _ _ _ hl1]
          omega
        · intro hc
          rw [cutAndContinue_isGameEnded] at hc
          rw [hend] at hc
          cases hc
      · have hle : (topLayer s).getSize d
            - |(topLayer s).getPosition d - (previousLayer s).getPosition d| ≤ 0 :=
          not_lt.mp hov
        rw [split_eq_miss s d hend hlen hdir hle]
        refine ⟨?_, ?_, ?_, ?_, ?_⟩
        · rw [missBlock_score]
          simp [hov]
        · rw [missBlock_isAutopilot]
          exact hA
        · rw [missBlock_score]
          exact hs0
        · rw [missBlock_isGameEnded]
          simp
        · intro _
          rw [missBlock_score, missBlock_stack]
          simp only [List.length_dropLast]
          omega

/-- The score and the invariant across one frame tick.  (With autopilot off
— an invariant of every within-game state — a tick never auto-places, so it
never changes the score.) -/
lemma update_score_inv (s : GameState) (dt np : ℚ) (h : Inv s) :
    (update s dt np).score = s.score + (if opSuccess s (.tick dt np) then 1 else 0)
    ∧ Inv (update s dt np) := by
  obtain ⟨hA, hs0, hAw, hEn⟩ := h
  have hOpA : opSuccess s (.tick dt np) = false := by
    simp [opSuccess, hA]
  rw [hOpA]
  simp only [update]
  by_cases h1 : s.stack.length < 2
  · rw [if_pos h1]
    exact ⟨by simp, hA, hs0, hAw, hEn⟩
  · rw [if_neg h1]
    have hlen : 2 ≤ s.stack.length := by omega
    by_cases h2 : shouldBlockMove s (topLayer s) (previousLayer s) = true
    · rw [if_pos h2]
      have hend := shouldBlockMove_not_ended s _ _ h2
      have hlenZ := hAw hend
      by_cases h3 : ((topLayer s).updatePosition (topLayer s).direction
          (movementSpeed * dt)).isOutOfBounds = true
      · rw [if_pos h3]
        refine ⟨by rw [missBlock_score]; simp, ?_, ?_, ?_, ?_⟩
        · rw [missBlock_isAutopilot]
          exact hA
        · rw [missBlock_score]
          exact hs0
        · rw [missBlock_isGameEnded]
          simp
        · intro _
          rw [missBlock_score, missBlock_stack]
          simp only [List.dropLast_concat, List.length_dropLast]
          omega
      · rw [if_neg h3]
        refine ⟨by simp, hA, hs0, ?_, ?_⟩
        · intro _
          have hd := List.length_dropLast s.stack
          simp only [List.length_append, List.length_singleton]
          omega
        · intro hc
          rw [hend] at hc
          cases hc
    · rw [if_neg h2, if_neg (by rw [hA]; simp)]
      exact ⟨by simp, hA, hs0, hAw, hEn⟩

/-- The score and the invariant across any single operation. -/
lemma step_score_inv (s : GameState) (op : Op) (h : Inv s) :
    (step s op).score = s.score + (if opSuccess s op then 1 else 0)
    ∧ Inv (step s op) := by
  cases op with
  | place =>
    have hA := h.1
    have hs := split_score_inv s h
    simp only [step, handleBlockPlacement, hA, if_false, opSuccess, hA,
      Bool.not_false, Bool.true_and]
    exact hs
  | tick dt np =>
    exact update_score_inv s dt np h

lemma startGame_score (s0 : GameState) : (startGame s0).score = 0 := rfl

lemma startGame_stack_length (s0 : GameState) :
    (startGame s0).stack.length = 2 := by
  simp [startGame, addLayer]

/-- The within-game invariant holds immediately after a reset. -/
lemma Inv_startGame (s0 : GameState) : Inv (startGame s0) := by
  refine ⟨rfl, le_refl 0, fun _ => ?_, fun hc => ?_⟩
  · rw [startGame_stack_length, startGame_score]
    norm_num
  · have : (startGame s0).isGameEnded = false := rfl
    rw [this] at hc
    cases hc

/-- Score accounting and invariant preservation along any trace. -/
lemma run_score_inv (ops : List Op) : ∀ s : GameState, Inv s →
    (run s ops).score = s.score + (successCount s ops : ℤ) ∧ Inv (run s ops) := by
  induction ops with
  | nil =>
    intro s h
    exact ⟨by simp [run, successCount], h⟩
  | cons op rest ih =>
    intro s h
    have hstep := step_score_inv s op h
    have hrest := ih (step s op) hstep.2
    have hrun : run s (op :: rest) = run (step s op) rest := rfl
    refine ⟨?_, by rw [hrun]; exact hrest.2⟩
    rw [hrun, hrest.1, hstep.1]
    have hsc : successCount s (op :: rest)
        = (if opSuccess s op then 1 else 0) + successCount (step s op) rest := rfl
    rw [hsc]
    by_cases hsucc : opSuccess s op = true <;> simp [hsucc] <;> ring

/-- Every state reachable within one game satisfies the invariant. -/
lemma reachable_inv (s : GameState) (h : Reachable s) : Inv s := by
  obtain ⟨s0, ops, rfl⟩ := h
  exact (run_score_inv ops (startGame s0) (Inv_startGame s0)).2

/-- C6: starting from a fresh game, after any trace of operations the score
equals exactly the number of successful (non-missed) placements in that
trace — in particular it is N after N successful placements; across any
single within-game operation from any reachable state the score never
decreases; and the explicit reset (startGame) sets it back to 0. -/
theorem C6_score_counts_and_never_decreases (s0 : GameState) (ops : List Op)
    (s : GameState) (hs : Reachable s) (op : Op) :
    (run (startGame s0) ops).score = (successCount (startGame s0) ops : ℤ)
    ∧ s.score ≤ (step s op).score
    ∧ (startGame s).score = 0 := by
  have hr := run_score_inv ops (startGame s0) (Inv_startGame s0)
  have hι := reachable_inv s hs
  have hstep := (step_score_inv s op hι).1
  refine ⟨?_, ?_, rfl⟩
  · rw [hr.1, startGame_score, zero_add]
  · rw [hstep]
    by_cases h : opSuccess s op = true <;> simp [h]

/-- C6 witness: the theorem applied to the fresh game with the empty trace
and a placement step. -/
theorem C6_witness :
    Reachable (startGame (initialState 0))
    ∧ ((run (startGame (initialState 0)) []).score
        = (successCount (startGame (initialState 0)) [] : ℤ)
      ∧ (startGame (initialState 0)).score
          ≤ (step (startGame (initialState 0)) Op.place).score
      ∧ (startGame (startGame (initialState 0))).score = 0) :=
  ⟨⟨initialState 0, [], rfl⟩,
   C6_score_counts_and_never_decreases (initialState 0) [] (startGame (initialState 0))
     ⟨initialState 0, [], rfl⟩ Op.place⟩

/-- C7 counterexample: immediately after a reset — a settled moment — the
score is 0 while the stack holds the 2 seed layers, so
score ≠ stack.length - 1.  The claimed identity fails. -/
theorem C7_counterexample :
    (startGame (initialState 0)).score = 0
    ∧ (startGame (initialState 0)).stack.length = 2
    ∧ ¬((startGame (initialState 0)).score
        = ((startGame (initialState 0)).stack.length : ℤ) - 1) := by
  refine ⟨rfl, startGame_stack_length (initialState 0), fun hc => ?_⟩
  rw [startGame_score, startGame_stack_length] at hc
  norm_num at hc

/-- C7 (amended): at every settled moment within one game, while the game
has not ended the score equals stack.length - 2 (the sliding top layer is
not yet a placed layer), and once the game has ended the score equals
stack.length - 1. -/
theorem C7_score_stack_relation (s : GameState) (hs : Reachable s) :
    (s.isGameEnded = false → (s.stack.length : ℤ) = s.score + 2)
    ∧ (s.isGameEnded = true → (s.stack.length : ℤ) = s.score + 1) := by
  have h := reachable_inv s hs
  exact ⟨h.2.2.1, h.2.2.2⟩

/-- C7 witness: the amended theorem applied to the fresh game state. -/
theorem C7_witness :
    Reachable (startGame (initialState 0))
    ∧ (((startGame (initialState 0)).isGameEnded = false
        → ((startGame (initialState 0)).stack.length : ℤ)
            = (startGame (initialState 0)).score + 2)
      ∧ ((startGame (initialState 0)).isGameEnded = true
        → ((startGame (initialState 0)).stack.length : ℤ)
            = (startGame (initialState 0)).score + 1)) :=
  ⟨⟨initialState 0, [], rfl⟩,
   C7_score_stack_relation (startGame (initialState 0)) ⟨initialState 0, [], rfl⟩⟩

end StackGame












